import Mathlib

/-!
Verification of the scout-report content script of `managerzone-tools`
(`src/content/scout-report.js`), against its natural-language specification.

The JavaScript is shallowly embedded:
* JS strings are modelled as lists of code points (`Str := List Nat`);
  `String.prototype.trim` / `toLowerCase` become `jsTrim` / `jsToLower`
  (ASCII case mapping, which is all the script's data exercises).
* `localStorage` is modelled as an association list from keys to the
  structured cache entries the script stores (the `JSON.stringify` /
  `JSON.parse` round trip is abstracted away).
* The DOM fragments consumed by the parser and the flag engine are
  modelled as plain data trees (`DDBlock`, `Cell`, `Row`) exposing exactly
  the features the script queries (heading text, list items, star widget,
  cell widths, `.clippable` name spans, cell children).
-/

/-- Code-point strings: the model of JavaScript strings. -/
abbrev Str := List Nat

/-- Converts a Lean string literal to its code-point model. -/
def str (s : String) : Str := s.data.map Char.toNat

/-- ASCII case mapping of `String.prototype.toLowerCase` on one code point. -/
def jsLowerChar (c : Nat) : Nat := if 65 ≤ c ∧ c ≤ 90 then c + 32 else c

/-- Whitespace test used by `String.prototype.trim` (WhiteSpace and
LineTerminator code points). -/
def jsIsSpace (c : Nat) : Bool :=
  decide (c = 32 ∨ c = 9 ∨ c = 10 ∨ c = 11 ∨ c = 12 ∨ c = 13 ∨ c = 160 ∨
    c = 65279 ∨ c = 8232 ∨ c = 8233)

/-- Model of `String.prototype.toLowerCase`. -/
def jsToLower (s : Str) : Str := s.map jsLowerChar

/-- Model of `String.prototype.trim`: drop leading and trailing whitespace. -/
def jsTrim (s : Str) : Str :=
  ((s.dropWhile jsIsSpace).reverse.dropWhile jsIsSpace).reverse

/-- Model of the script's `norm` helper (`scout-report.js` line 182 and the
local copy inside `applyFlagsToContainer`): `s?.trim().toLowerCase()`. -/
def jsNorm (s : Str) : Str := jsToLower (jsTrim s)

/-- The `SKILL_NAME_ALIAS` table (`scout-report.js` lines 164-180). -/
def SKILL_NAME_ALIAS : List (Str × Str) :=
  [ (str "play intelligence", str "play intelligence")
  , (str "ball control", str "ball control")
  , (str "aerial passing", str "aerial passing")
  , (str "set plays", str "set plays")
  , (str "goalkeeping", str "keeping")
  , (str "keeping", str "keeping")
  , (str "tackling", str "tackling")
  , (str "passing", str "passing")
  , (str "heading", str "heading")
  , (str "shooting", str "shooting")
  , (str "speed", str "speed")
  , (str "stamina", str "stamina")
  , (str "form", str "form")
  , (str "experience", str "experience") ]

/-- Model of `normalizeSkillName` (`scout-report.js` lines 185-188):
`SKILL_NAME_ALIAS.get(key) || key`, where a looked-up empty string is falsy
and falls back to the key. -/
def normalizeSkillName (name : Str) : Str :=
  let key := jsNorm name
  match SKILL_NAME_ALIAS.lookup key with
  | some v => if v.isEmpty then key else v
  | none => key

/-- Dropping trailing `p`-elements, the mirror image of `List.dropWhile`. -/
def dropTail (p : α → Bool) (l : List α) : List α :=
  (l.reverse.dropWhile p).reverse

-- ### Scout cache (`scout-report.js` lines 27-70)

/-- The `CACHE_KEY_PREFIX` constant of the source (`"mz-scout-"`). -/
def cacheKeyBase : Str := str "mz-scout-"

/-- The `CACHE_VERSION` constant of the source. -/
def CACHE_VERSION : Str := str "v1"

/-- The `CACHE_EXPIRY_DAYS` constant of the source. -/
def CACHE_EXPIRY_DAYS : Nat := 30

/-- Model of `getCacheKey`: the versioned, namespaced storage key. -/
def getCacheKey (pid : Str) : Str := cacheKeyBase ++ CACHE_VERSION ++ str "-" ++ pid

/-- The structured record produced by `parseScoutHTML`. -/
structure ScoutRecord where
  highest : List Str
  lowest : List Str
  starsHigh : Option Nat
  starsLow : Option Nat
deriving DecidableEq

/-- The object persisted by `setCachedScoutData` (`JSON` round trip through
`localStorage` abstracted to the structured value). -/
structure CacheEntry where
  scoutData : ScoutRecord
  expires : Nat
  cached : Nat
deriving DecidableEq

/-- Model of `localStorage`: an association list from keys to entries. -/
abbrev Store := List (Str × CacheEntry)

/-- Model of `localStorage.removeItem`. -/
def storeRemove (s : Store) (k : Str) : Store := s.filter (fun p => !(p.1 == k))

/-- Model of `localStorage.setItem`: replaces any entry under the key. -/
def storeSet (s : Store) (k : Str) (v : CacheEntry) : Store := (k, v) :: storeRemove s k

/-- Model of `getCachedScoutData` (`scout-report.js` lines 32-52): returns the
cached record, or `none` — deleting the entry when it is present but expired.
The JS reads `Date.now()`; the model takes that clock value as `now`.
The truthiness guard `data.expires && now > data.expires` makes a stored
`expires` of `0` never count as expired. -/
def getCachedScoutData (store : Store) (now : Nat) (pid : Str) :
    Option ScoutRecord × Store :=
  let key := getCacheKey pid
  match store.lookup key with
  | none => (none, store)
  | some data =>
    if data.expires ≠ 0 ∧ data.expires < now then (none, storeRemove store key)
    else (some data.scoutData, store)

/-- Model of `setCachedScoutData` (`scout-report.js` lines 54-70). -/
def setCachedScoutData (store : Store) (now : Nat) (pid : Str)
    (scoutData : ScoutRecord) : Store :=
  storeSet store (getCacheKey pid)
    { scoutData := scoutData
      expires := now + CACHE_EXPIRY_DAYS * 24 * 60 * 60 * 1000
      cached := now }

-- ### Scout report parser (`scout-report.js` lines 102-135)

/-- Does `pat` occur at the start of `s`? -/
def strStarts : Str → Str → Bool
  | [], _ => true
  | _ :: _, [] => false
  | p :: ps, c :: cs => p == c && strStarts ps cs

/-- Model of `String.prototype.includes`: does `pat` occur in `s`? -/
def strIncludes (pat : Str) : Str → Bool
  | [] => pat.isEmpty
  | c :: rest => strStarts pat (c :: rest) || strIncludes pat rest

/-- One `<dd>` definition block of the fetched fragment, as the parser
queries it: the text of its first `li > strong` descendant (`none` when that
selector matches nothing), the text of its `ul li` descendants in order, and
the lit-pattern of its first `.stars` widget (`none` when absent; the list
holds one flag per star child, `true` for `.lit`). -/
structure DDBlock where
  strongText : Option Str
  liTexts : List Str
  stars : Option (List Bool)
deriving DecidableEq

/-- The case-insensitive filter `/potential|youth training speed/i` applied
to the list-item text. -/
def skillFilteredOut (t : Str) : Bool :=
  strIncludes (str "potential") (jsToLower t) ||
    strIncludes (str "youth training speed") (jsToLower t)

/-- The `skills` computation for a block: trim each list item, keep it when
non-empty and not matching the filter. -/
def ddSkills (dd : DDBlock) : List Str :=
  (dd.liTexts.map jsTrim).filter (fun t => !t.isEmpty && !skillFilteredOut t)

/-- The `litCount` computation: number of `.lit` elements inside the first
`.stars` widget, `none` when there is no widget. -/
def ddLitCount (dd : DDBlock) : Option Nat :=
  dd.stars.map (fun l => (l.filter (fun b => b)).length)

/-- The parser's initial state: `highest = []`, `lowest = []`, star counts
undefined. -/
def emptyScoutRecord : ScoutRecord :=
  { highest := [], lowest := [], starsHigh := none, starsLow := none }

/-- One iteration of the parser's `for (const dd of dds)` loop. -/
def parseStep (acc : ScoutRecord) (dd : DDBlock) : ScoutRecord :=
  match dd.strongText with
  | none => acc
  | some t =>
    let title := jsNorm t
    if title.isEmpty then acc
    else if strIncludes (str "highest") title then
      { acc with highest := ddSkills dd, starsHigh := ddLitCount dd }
    else if strIncludes (str "lowest") title then
      { acc with lowest := ddSkills dd, starsLow := ddLitCount dd }
    else acc

/-- Model of `parseScoutHTML`: the input is the list of `<dd>` blocks that
`DOMParser` (which is total, accepting arbitrary malformed HTML) extracts
from the fragment. -/
def parseScoutHTML (doc : List DDBlock) : ScoutRecord :=
  doc.foldl parseStep emptyScoutRecord

/-- A block the parser routes to the `highest` branch. -/
def ddHigh (dd : DDBlock) : Bool :=
  match dd.strongText with
  | none => false
  | some t => !(jsNorm t).isEmpty && strIncludes (str "highest") (jsNorm t)

/-- A block the parser routes to the `lowest` branch (the `highest` branch
is tested first). -/
def ddLow (dd : DDBlock) : Bool :=
  match dd.strongText with
  | none => false
  | some t =>
    !(jsNorm t).isEmpty && !strIncludes (str "highest") (jsNorm t) &&
      strIncludes (str "lowest") (jsNorm t)

-- ### Scout fetcher (`scout-report.js` lines 137-161)

/-- `Response.ok`: status in the 2xx range. -/
def resOk (status : Nat) : Bool := decide (200 ≤ status) && decide (status < 300)

/-- Outcome of one `fetchScout` call: the returned record or thrown HTTP
status, the storage afterwards, and how many network requests were issued. -/
structure FetchOutcome where
  result : Except Nat ScoutRecord
  store : Store
  requests : Nat

/-- Model of `fetchScout`: cache lookup first (returning immediately on a
hit, with zero requests); on a miss one request is issued, a non-ok status
throws `HTTP <status>`, otherwise the body is parsed, cached and returned.
The network response for the player is abstracted as the `status` code and
the `body` document (the `<dd>` blocks of the response HTML). -/
def fetchScout (store : Store) (now : Nat) (pid : Str) (status : Nat)
    (body : List DDBlock) : FetchOutcome :=
  match getCachedScoutData store now pid with
  | (some cached, s1) => { result := Except.ok cached, store := s1, requests := 0 }
  | (none, s1) =>
    if resOk status then
      let scoutData := parseScoutHTML body
      { result := Except.ok scoutData
        store := setCachedScoutData s1 now pid scoutData
        requests := 1 }
    else { result := Except.error status, store := s1, requests := 1 }

-- ### Flag placement engine (`scout-report.js` lines 209-306)

/-- The three flag colors of `FLAG_IMG`. -/
inductive FlagColor
  | green
  | yellow
  | red
deriving DecidableEq

/-- A child node of a table cell, as the flag engine sees it: a flag image
created by `flagImg`, a `.clippable` name span, or any other markup. -/
inductive CellNode
  | flagImg (color : FlagColor)
  | clippableSpan (text : Str)
  | otherNode (data : Nat)
deriving DecidableEq

/-- A `<td>` of a skill row: its `width` attribute and its children
(`innerHTML`). -/
structure Cell where
  width : Option Nat
  nodes : List CellNode
deriving DecidableEq

/-- A `<tr>` of the `.player_skills` table: its `<td>` children in order. -/
structure Row where
  cells : List Cell
deriving DecidableEq

/-- The text of the first `.clippable` descendant of a cell, if any. -/
def cellClippable (c : Cell) : Option Str :=
  c.nodes.findSome? (fun n =>
    match n with
    | CellNode.clippableSpan t => some t
    | _ => none)

/-- `tr.querySelector("td:first-child .clippable")?.textContent`. -/
def rowNameText (r : Row) : Option Str :=
  match r.cells.head? with
  | none => none
  | some c => cellClippable c

/-- The normalized key a row is registered under in `nameToRows` (note: the
plain `norm`, not `normalizeSkillName`). -/
def rowKey (r : Row) : Option Str := (rowNameText r).map jsNorm

/-- The width-attribute test of the `getFlagCells` fallback selector
`td[width='7'], td[width='6']`. -/
def widthEligible (w : Option Nat) : Bool := w == some 7 || w == some 6

/-- Indices selected by the fallback: cells with eligible width, first 3. -/
def widthIdxs (ws : List (Option Nat)) : List Nat :=
  ((List.range ws.length).filter (fun i =>
    match ws[i]? with
    | some w => widthEligible w
    | none => false)).take 3

/-- Model of `getFlagCells` on the width profile of a row: with at least 4
cells, cells 1-3; otherwise the width-attribute fallback. -/
def flagIdxsOf (ws : List (Option Nat)) : List Nat :=
  if 4 ≤ ws.length then [1, 2, 3] else widthIdxs ws

/-- The flag-eligible cell indices of a row. -/
def getFlagIdxs (r : Row) : List Nat := flagIdxsOf (r.cells.map Cell.width)

/-- Replace the element at one index, when present. -/
def updAt (l : List α) (i : Nat) (f : α → α) : List α :=
  match l[i]? with
  | some a => l.set i (f a)
  | none => l

/-- `td.innerHTML = ""`. -/
def clearNodes (c : Cell) : Cell := { c with nodes := [] }

/-- `td.appendChild(flagImg(color))`. -/
def appendFlag (color : FlagColor) (c : Cell) : Cell :=
  { c with nodes := c.nodes ++ [CellNode.flagImg color] }

/-- Model of `clearFlagCells` over the selected cell indices. -/
def clearCellsAt (r : Row) (idxs : List Nat) : Row :=
  { cells := idxs.foldl (fun cs i => updAt cs i clearNodes) r.cells }

/-- Model of `setFlagsInCells`: clear every selected cell, then append one
flag image to each of the first `min(count, cells.length)` of them. -/
def setFlagsInCells (r : Row) (idxs : List Nat) (color : FlagColor) (count : Nat) : Row :=
  let r1 := clearCellsAt r idxs
  { cells := (idxs.take count).foldl (fun cs i => updAt cs i (appendFlag color)) r1.cells }

/-- The `highCount` mapping of `applyFlagsToContainer` (lines 272-273):
`4★ → 3, 3★ → 2, 2★ → 1`, else `0`. -/
def highCount (stars : Option Nat) : Nat :=
  if stars = some 4 then 3
  else if stars = some 3 then 2
  else if stars = some 2 then 1
  else 0

/-- The `lowSpec` mapping of `applyFlagsToContainer` (lines 274-279):
`2★ → one yellow`, `1★ → one red`, else none. -/
def lowSpec (starsLow : Option Nat) : Option (FlagColor × Nat) :=
  if starsLow = some 2 then some (FlagColor.yellow, 1)
  else if starsLow = some 1 then some (FlagColor.red, 1)
  else none

/-- The high-pass treatment of one matched row:
`setFlagsInCells(getFlagCells(tr), "green", highCount)`. -/
def rowHighOp (count : Nat) (r : Row) : Row :=
  setFlagsInCells r (getFlagIdxs r) FlagColor.green count

/-- The low-pass treatment of one matched row: `clearFlagCells` then
`setFlagsInCells` with the low color and count. -/
def rowLowOp (color : FlagColor) (count : Nat) (r : Row) : Row :=
  setFlagsInCells (clearCellsAt r (getFlagIdxs r)) (getFlagIdxs r) color count

/-- Indices of the rows registered under `key` in `nameToRows` (built from
the container's rows before either pass runs). -/
def matchIdxs (orig : List Row) (key : Str) : List Nat :=
  (List.range orig.length).filter (fun i =>
    match orig[i]? with
    | some r => rowKey r == some key
    | none => false)

/-- One pass of `applyFlagsToContainer`: for each skill of the record list,
apply `f` to every row registered under the skill's normalized name. -/
def applyPass (orig : List Row) (skills : List Str) (f : Row → Row)
    (rs : List Row) : List Row :=
  skills.foldl (fun rs skill =>
    (matchIdxs orig (jsNorm skill)).foldl (fun rs i => updAt rs i f) rs) rs

/-- The `if (highCount > 0)` high-potential pass of `applyFlagsToContainer`. -/
def applyHighPass (rows : List Row) (highest : List Str) (starsHigh : Option Nat) :
    List Row :=
  if 0 < highCount starsHigh then
    applyPass rows highest (rowHighOp (highCount starsHigh)) rows
  else rows

/-- Model of `applyFlagsToContainer` (`scout-report.js` lines 250-306): an
empty row list returns immediately; otherwise the green high-potential pass
runs, then the low-potential pass (both passes look rows up in the
`nameToRows` map built from the original rows). -/
def applyFlagsToContainer (rows : List Row) (highest lowest : List Str)
    (starsHigh starsLow : Option Nat) : List Row :=
  if rows.isEmpty then rows
  else
    match lowSpec starsLow with
    | none => applyHighPass rows highest starsHigh
    | some (c, n) =>
      applyPass rows lowest (rowLowOp c n) (applyHighPass rows highest starsHigh)

/-- The key of the row at index `j`, if the row exists and is named. -/
def keyAt (rows : List Row) (j : Nat) : Option Str :=
  match rows[j]? with
  | some r => rowKey r
  | none => none

/-- Does any skill of the list normalize to `k`? -/
def skillListMatches (L : List Str) (k : Str) : Bool :=
  L.any (fun s => jsNorm s == k)

/-- Is row `j` matched by some skill of `L` (against the original rows)? -/
def rowMatchedBy (orig : List Row) (L : List Str) (j : Nat) : Bool :=
  match keyAt orig j with
  | some k => skillListMatches L k
  | none => false

/-- What the high pass leaves at row `j`. -/
def rowResultHigh (orig : List Row) (highest : List Str) (sh : Option Nat)
    (j : Nat) (r : Row) : Row :=
  if 0 < highCount sh then
    if rowMatchedBy orig highest j then rowHighOp (highCount sh) r else r
  else r

/-- What `applyFlagsToContainer` leaves at row `j`: the low instruction wins
on rows matched by `lowest` (it clears before writing), otherwise the high
instruction applies, otherwise the row is untouched. -/
def rowResult (orig : List Row) (highest lowest : List Str)
    (sh sl : Option Nat) (j : Nat) (r : Row) : Row :=
  match lowSpec sl with
  | none => rowResultHigh orig highest sh j r
  | some (c, n) =>
    if rowMatchedBy orig lowest j then rowLowOp c n r
    else rowResultHigh orig highest sh j r

-- ### Idempotence of the normalizer

theorem jsLowerChar_idem (c : Nat) : jsLowerChar (jsLowerChar c) = jsLowerChar c := by
  unfold jsLowerChar
  split
  · split <;> omega
  · rfl

theorem jsIsSpace_jsLowerChar (c : Nat) : jsIsSpace (jsLowerChar c) = jsIsSpace c := by
  unfold jsLowerChar jsIsSpace
  split
  · rw [decide_eq_decide]; omega
  · rfl

theorem dropWhile_head_false {p : α → Bool} :
    ∀ (l : List α) (a : α), (l.dropWhile p).head? = some a → p a = false := by
  intro l
  induction l with
  | nil => intro a h; simp [List.dropWhile] at h
  | cons x t ih =>
    intro a h
    by_cases hx : p x
    · rw [List.dropWhile_cons_of_pos hx] at h; exact ih a h
    · rw [List.dropWhile_cons_of_neg hx] at h
      simp at h
      subst h
      simpa using hx

theorem dropWhile_of_head_false {p : α → Bool} (l : List α)
    (h : ∀ a, l.head? = some a → p a = false) : l.dropWhile p = l := by
  cases l with
  | nil => rfl
  | cons x t =>
    have hx : p x = false := h x rfl
    have hx2 : ¬ p x = true := by simp [hx]
    rw [List.dropWhile_cons_of_neg hx2]

theorem dropWhile_idem {p : α → Bool} (l : List α) :
    (l.dropWhile p).dropWhile p = l.dropWhile p :=
  dropWhile_of_head_false _ (dropWhile_head_false l)

theorem dropTail_head {p : α → Bool} (l : List α) (a : α)
    (h : ∀ b, l.head? = some b → p b = false) :
    (dropTail p l).head? = some a → p a = false := by
  intro ha
  unfold dropTail at ha
  have hpre : (l.reverse.dropWhile p).reverse.IsPrefix l := by
    have hsuf : (l.reverse.dropWhile p).IsSuffix l.reverse := List.dropWhile_suffix p
    have := List.reverse_prefix.mpr (by simpa using hsuf)
    simpa using this
  obtain ⟨t, ht⟩ := hpre
  rcases l with _ | ⟨x, l⟩
  · simp [List.dropWhile] at ha
  · have hx : p x = false := h x rfl
    rcases hrev : (List.dropWhile p (x :: l).reverse).reverse with _ | ⟨y, r⟩
    · rw [hrev] at ha; simp at ha
    · rw [hrev] at ha ht
      simp at ha
      subst ha
      have : y = x := by
        have h2 := ht
        simp at h2
        exact h2.1
      rw [this]; exact hx

theorem dropTail_idem {p : α → Bool} (l : List α) :
    dropTail p (dropTail p l) = dropTail p l := by
  unfold dropTail
  rw [List.reverse_reverse, dropWhile_idem]

theorem jsTrim_eq_dropTail (s : Str) : jsTrim s = dropTail jsIsSpace (s.dropWhile jsIsSpace) := rfl

theorem jsTrim_idem (s : Str) : jsTrim (jsTrim s) = jsTrim s := by
  rw [jsTrim_eq_dropTail, jsTrim_eq_dropTail]
  rw [dropWhile_of_head_false (dropTail jsIsSpace (s.dropWhile jsIsSpace))
    (dropTail_head _ · (dropWhile_head_false s) ·)]
  exact dropTail_idem _

theorem jsToLower_jsTrim (s : Str) : jsTrim (jsToLower s) = jsToLower (jsTrim s) := by
  unfold jsTrim jsToLower
  have hcomp : (jsIsSpace ∘ jsLowerChar) = jsIsSpace := funext jsIsSpace_jsLowerChar
  rw [List.dropWhile_map, hcomp, ← List.map_reverse, List.dropWhile_map, hcomp,
    ← List.map_reverse]

theorem jsToLower_idem (s : Str) : jsToLower (jsToLower s) = jsToLower s := by
  unfold jsToLower
  rw [List.map_map]
  exact List.map_congr_left (fun c _ => jsLowerChar_idem c)

theorem jsNorm_idem (s : Str) : jsNorm (jsNorm s) = jsNorm s := by
  unfold jsNorm
  rw [jsToLower_jsTrim, jsTrim_idem, jsToLower_idem]

theorem lookup_mem {α β : Type} [BEq α] [LawfulBEq α] :
    ∀ (l : List (α × β)) (a : α) (b : β), l.lookup a = some b → (a, b) ∈ l := by
  intro l
  induction l with
  | nil => intro a b h; simp [List.lookup] at h
  | cons x t ih =>
    intro a b h
    rw [List.lookup] at h
    by_cases hx : a == x.1
    · rw [hx] at h
      simp at h
      have ha : a = x.1 := eq_of_beq hx
      have hab : (a, b) = x := by rw [ha, ← h]
      rw [hab]
      exact List.mem_cons_self x t
    · rw [Bool.eq_false_iff.mpr hx] at h
      right
      exact ih a b h

theorem alias_values_canonical :
    ∀ p ∈ SKILL_NAME_ALIAS, jsNorm p.2 = p.2 ∧
      SKILL_NAME_ALIAS.lookup p.2 = some p.2 ∧ p.2.isEmpty = false := by
  decide

theorem normalizeSkillName_lookup_none (x : Str)
    (h : SKILL_NAME_ALIAS.lookup (jsNorm x) = none) :
    normalizeSkillName x = jsNorm x := by
  unfold normalizeSkillName
  simp only [h]

theorem normalizeSkillName_lookup_some (x v : Str)
    (h : SKILL_NAME_ALIAS.lookup (jsNorm x) = some v) (hne : v.isEmpty = false) :
    normalizeSkillName x = v := by
  unfold normalizeSkillName
  simp only [h, hne, Bool.false_eq_true, if_false]

/-- Claim C8: `normalizeSkillName` is idempotent — trimming, lowercasing and
alias lookup together form a projection: applying the normalizer to its own
output returns that output unchanged, for every input string. -/
theorem mz_C8 (x : Str) :
    normalizeSkillName (normalizeSkillName x) = normalizeSkillName x := by
  rcases hl : SKILL_NAME_ALIAS.lookup (jsNorm x) with _ | v
  · rw [normalizeSkillName_lookup_none x hl]
    have h2 : SKILL_NAME_ALIAS.lookup (jsNorm (jsNorm x)) = none := by
      rw [jsNorm_idem]; exact hl
    rw [normalizeSkillName_lookup_none _ h2, jsNorm_idem]
  · have hmem := lookup_mem _ _ _ hl
    obtain ⟨hn, hlv, hne⟩ := alias_values_canonical _ hmem
    rw [normalizeSkillName_lookup_some x v hl hne]
    exact normalizeSkillName_lookup_some v v (by rw [hn]; exact hlv) hne

-- ### Cache lemmas

theorem lookup_storeRemove (s : Store) (k : Str) :
    (storeRemove s k).lookup k = none := by
  induction s with
  | nil => rfl
  | cons p t ih =>
    unfold storeRemove at ih ⊢
    rw [List.filter_cons]
    by_cases hp : p.1 == k
    · simp only [hp, Bool.not_true, Bool.false_eq_true, if_false]
      exact ih
    · have hp2 : (!(p.1 == k)) = true := by simp [hp]
      rw [hp2, if_pos rfl, List.lookup]
      have hk : (k == p.1) = false := by
        rcases h2 : k == p.1
        · rfl
        · exact absurd (by rw [eq_of_beq h2]; exact LawfulBEq.rfl) hp
      rw [hk]
      exact ih

theorem lookup_storeSet (s : Store) (k : Str) (v : CacheEntry) :
    (storeSet s k v).lookup k = some v := by
  unfold storeSet
  rw [List.lookup]
  have hk : (k == k) = true := LawfulBEq.rfl
  rw [hk]

theorem cache_roundtrip (store : Store) (t0 : Nat) (pid : Str) (rec : ScoutRecord)
    (t1 : Nat) (h : t1 ≤ t0 + CACHE_EXPIRY_DAYS * 24 * 60 * 60 * 1000) :
    getCachedScoutData (setCachedScoutData store t0 pid rec) t1 pid =
      (some rec, setCachedScoutData store t0 pid rec) := by
  have hset : (setCachedScoutData store t0 pid rec).lookup (getCacheKey pid) =
      some { scoutData := rec,
             expires := t0 + CACHE_EXPIRY_DAYS * 24 * 60 * 60 * 1000,
             cached := t0 } :=
    lookup_storeSet store (getCacheKey pid) _
  unfold getCachedScoutData
  simp only [hset]
  rw [if_neg]
  intro hc
  omega

/-- Claim C2: after `setCachedScoutData` at time `t0`, `getCachedScoutData`
at any time `t1` within the 30-day window returns the stored record with the
storage untouched; past the window it returns `none` and removes the entry
from storage as a side effect. -/
theorem mz_C2 (store : Store) (pid : Str) (rec : ScoutRecord) (t0 t1 : Nat) :
    (t1 ≤ t0 + CACHE_EXPIRY_DAYS * 24 * 60 * 60 * 1000 →
      getCachedScoutData (setCachedScoutData store t0 pid rec) t1 pid =
        (some rec, setCachedScoutData store t0 pid rec)) ∧
    (t0 + CACHE_EXPIRY_DAYS * 24 * 60 * 60 * 1000 < t1 →
      getCachedScoutData (setCachedScoutData store t0 pid rec) t1 pid =
        (none, storeRemove (setCachedScoutData store t0 pid rec) (getCacheKey pid)) ∧
      ((getCachedScoutData (setCachedScoutData store t0 pid rec) t1 pid).2).lookup
          (getCacheKey pid) = none) := by
  constructor
  · exact cache_roundtrip store t0 pid rec t1
  · intro h
    have hset : (setCachedScoutData store t0 pid rec).lookup (getCacheKey pid) =
        some { scoutData := rec,
               expires := t0 + CACHE_EXPIRY_DAYS * 24 * 60 * 60 * 1000,
               cached := t0 } :=
      lookup_storeSet store (getCacheKey pid) _
    have hmain : getCachedScoutData (setCachedScoutData store t0 pid rec) t1 pid =
        (none, storeRemove (setCachedScoutData store t0 pid rec) (getCacheKey pid)) := by
      unfold getCachedScoutData
      simp only [hset]
      rw [if_pos]
      constructor
      · simp only [CACHE_EXPIRY_DAYS]
        omega
      · exact h
    refine ⟨hmain, ?_⟩
    rw [hmain]
    exact lookup_storeRemove _ _

/-- Witness for C2 at a concrete store, player id, record and clock. -/
theorem mz_C2_witness :
    getCachedScoutData
        (setCachedScoutData [] 0 (str "123") ⟨[str "Passing"], [], some 3, none⟩) 5 (str "123") =
      (some (⟨[str "Passing"], [], some 3, none⟩ : ScoutRecord),
        setCachedScoutData [] 0 (str "123") ⟨[str "Passing"], [], some 3, none⟩) :=
  (mz_C2 [] (str "123") ⟨[str "Passing"], [], some 3, none⟩ 0 5).1 (by decide)

-- ### Parser lemmas

theorem parseStep_high (acc : ScoutRecord) (dd : DDBlock) (h : ddHigh dd = true) :
    parseStep acc dd = { acc with highest := ddSkills dd, starsHigh := ddLitCount dd } := by
  unfold ddHigh at h
  unfold parseStep
  cases hs : dd.strongText with
  | none => rw [hs] at h; simp at h
  | some t =>
    rw [hs] at h
    simp only [Bool.and_eq_true, Bool.not_eq_eq_eq_not, Bool.not_true] at h
    obtain ⟨he, hi⟩ := h
    simp only [he, Bool.false_eq_true, if_false, hi, if_pos]

theorem parseStep_low (acc : ScoutRecord) (dd : DDBlock) (h : ddLow dd = true) :
    parseStep acc dd = { acc with lowest := ddSkills dd, starsLow := ddLitCount dd } := by
  unfold ddLow at h
  unfold parseStep
  cases hs : dd.strongText with
  | none => rw [hs] at h; simp at h
  | some t =>
    rw [hs] at h
    simp only [Bool.and_eq_true, Bool.not_eq_eq_eq_not, Bool.not_true] at h
    obtain ⟨⟨he, hnh⟩, hl⟩ := h
    simp only [he, Bool.false_eq_true, if_false, hnh, hl, if_pos]

theorem parseStep_preserves_high (acc : ScoutRecord) (dd : DDBlock)
    (h : ddHigh dd = false) :
    (parseStep acc dd).highest = acc.highest ∧
      (parseStep acc dd).starsHigh = acc.starsHigh := by
  unfold ddHigh at h
  unfold parseStep
  cases hs : dd.strongText with
  | none => exact ⟨rfl, rfl⟩
  | some t =>
    rw [hs] at h
    have h3 : (!(jsNorm t).isEmpty && strIncludes (str "highest") (jsNorm t)) = false := h
    by_cases he : (jsNorm t).isEmpty
    · simp [he]
    · have he2 : (jsNorm t).isEmpty = false := by simpa using he
      have hi : strIncludes (str "highest") (jsNorm t) = false := by
        rcases h2 : strIncludes (str "highest") (jsNorm t)
        · rfl
        · rw [he2, h2] at h3; simp at h3
      simp only [he2, Bool.false_eq_true, if_false, hi]
      by_cases hl : strIncludes (str "lowest") (jsNorm t)
      · simp [hl]
      · simp [hl]

theorem parseStep_preserves_low (acc : ScoutRecord) (dd : DDBlock)
    (h : ddLow dd = false) :
    (parseStep acc dd).lowest = acc.lowest ∧
      (parseStep acc dd).starsLow = acc.starsLow := by
  unfold ddLow at h
  unfold parseStep
  cases hs : dd.strongText with
  | none => exact ⟨rfl, rfl⟩
  | some t =>
    rw [hs] at h
    have h3 : (!(jsNorm t).isEmpty && !strIncludes (str "highest") (jsNorm t) &&
        strIncludes (str "lowest") (jsNorm t)) = false := h
    by_cases he : (jsNorm t).isEmpty
    · simp [he]
    · have he2 : (jsNorm t).isEmpty = false := by simpa using he
      by_cases hi : strIncludes (str "highest") (jsNorm t)
      · simp [he2, hi]
      · have hi2 : strIncludes (str "highest") (jsNorm t) = false := by simpa using hi
        have hl : strIncludes (str "lowest") (jsNorm t) = false := by
          rcases h2 : strIncludes (str "lowest") (jsNorm t)
          · rfl
          · rw [he2, hi2, h2] at h3; simp at h3
        simp [he2, hi2, hl]

theorem foldl_preserves_high (l : List DDBlock) :
    ∀ acc : ScoutRecord, (∀ d ∈ l, ddHigh d = false) →
      (l.foldl parseStep acc).highest = acc.highest ∧
        (l.foldl parseStep acc).starsHigh = acc.starsHigh := by
  induction l with
  | nil => intro acc _; exact ⟨rfl, rfl⟩
  | cons d t ih =>
    intro acc h
    rw [List.foldl_cons]
    have hd := parseStep_preserves_high acc d (h d (List.mem_cons_self d t))
    have ht := ih (parseStep acc d) (fun x hx => h x (List.mem_cons_of_mem d hx))
    exact ⟨ht.1.trans hd.1, ht.2.trans hd.2⟩

theorem foldl_preserves_low (l : List DDBlock) :
    ∀ acc : ScoutRecord, (∀ d ∈ l, ddLow d = false) →
      (l.foldl parseStep acc).lowest = acc.lowest ∧
        (l.foldl parseStep acc).starsLow = acc.starsLow := by
  induction l with
  | nil => intro acc _; exact ⟨rfl, rfl⟩
  | cons d t ih =>
    intro acc h
    rw [List.foldl_cons]
    have hd := parseStep_preserves_low acc d (h d (List.mem_cons_self d t))
    have ht := ih (parseStep acc d) (fun x hx => h x (List.mem_cons_of_mem d hx))
    exact ⟨ht.1.trans hd.1, ht.2.trans hd.2⟩

/-- Claim C6: the parser is total by construction (it is a plain function on
the block list any `DOMParser` run yields, even for malformed fragments), and
on any fragment with no block recognizable as a `highest` or `lowest` heading
it returns the default record `{highest: [], lowest: [], starsHigh: absent,
starsLow: absent}`. -/
theorem mz_C6 (doc : List DDBlock)
    (h : ∀ dd ∈ doc, ddHigh dd = false ∧ ddLow dd = false) :
    parseScoutHTML doc =
      { highest := [], lowest := [], starsHigh := none, starsLow := none } := by
  unfold parseScoutHTML
  have hh := foldl_preserves_high doc emptyScoutRecord (fun d hd => (h d hd).1)
  have hl := foldl_preserves_low doc emptyScoutRecord (fun d hd => (h d hd).2)
  have : (doc.foldl parseStep emptyScoutRecord) = emptyScoutRecord := by
    cases hres : doc.foldl parseStep emptyScoutRecord
    rw [hres] at hh hl
    unfold emptyScoutRecord at hh hl ⊢
    simp at hh hl
    simp [hh.1, hh.2, hl.1, hl.2]
  rw [this]
  rfl

/-- Witness for C6: a fragment whose only blocks have an unrelated heading or
no heading at all parses to the default record. -/
theorem mz_C6_witness :
    parseScoutHTML
        [ { strongText := some (str "Other facts"), liTexts := [str "Passing"],
            stars := some [true, true] }
        , { strongText := none, liTexts := [str "Shooting"], stars := none } ] =
      { highest := [], lowest := [], starsHigh := none, starsLow := none } :=
  mz_C6 _ (by decide)

/-- Counterexample to C3 as stated: with two `highest` blocks in the
fragment, the parser returns the second block's skill list, not the first's —
each matching block overwrites the previous assignment. -/
theorem mz_C3_cex :
    (parseScoutHTML
        [ { strongText := some (str "Highest potential"), liTexts := [str "Passing"],
            stars := some [true, true, true] }
        , { strongText := some (str "Highest potential"), liTexts := [str "Shooting"],
            stars := some [true] } ]) =
      { highest := [str "Shooting"], lowest := [], starsHigh := some 1, starsLow := none } ∧
    [str "Shooting"] ≠ [str "Passing"] := by decide

/-- Claim C3 as amended: the LAST block whose heading is recognized as
`highest` determines `highest`/`starsHigh` (earlier ones are overwritten),
and likewise the last `lowest`-recognized block determines
`lowest`/`starsLow`. -/
theorem mz_C3 (doc l1 l2 : List DDBlock) (dd : DDBlock) :
    (doc = l1 ++ dd :: l2 → ddHigh dd = true → (∀ d ∈ l2, ddHigh d = false) →
      (parseScoutHTML doc).highest = ddSkills dd ∧
        (parseScoutHTML doc).starsHigh = ddLitCount dd) ∧
    (doc = l1 ++ dd :: l2 → ddLow dd = true → (∀ d ∈ l2, ddLow d = false) →
      (parseScoutHTML doc).lowest = ddSkills dd ∧
        (parseScoutHTML doc).starsLow = ddLitCount dd) := by
  constructor
  · intro hdoc hdd hl2
    subst hdoc
    unfold parseScoutHTML
    rw [List.foldl_append, List.foldl_cons, parseStep_high _ dd hdd]
    have := foldl_preserves_high l2
      { (l1.foldl parseStep emptyScoutRecord) with
        highest := ddSkills dd, starsHigh := ddLitCount dd } hl2
    exact this
  · intro hdoc hdd hl2
    subst hdoc
    unfold parseScoutHTML
    rw [List.foldl_append, List.foldl_cons, parseStep_low _ dd hdd]
    have := foldl_preserves_low l2
      { (l1.foldl parseStep emptyScoutRecord) with
        lowest := ddSkills dd, starsLow := ddLitCount dd } hl2
    exact this

/-- Witness for the amended C3 on a concrete fragment with two `highest`
blocks and a trailing `lowest` block. -/
theorem mz_C3_witness :
    (parseScoutHTML
        [ ⟨some (str "Highest potential"), [str "Passing"], some [true, true, true]⟩
        , ⟨some (str "Highest potential"), [str "Shooting"], some [true]⟩
        , ⟨some (str "Lowest potential"), [str "Tackling"], none⟩ ]).highest =
      ddSkills ⟨some (str "Highest potential"), [str "Shooting"], some [true]⟩ ∧
    (parseScoutHTML
        [ ⟨some (str "Highest potential"), [str "Passing"], some [true, true, true]⟩
        , ⟨some (str "Highest potential"), [str "Shooting"], some [true]⟩
        , ⟨some (str "Lowest potential"), [str "Tackling"], none⟩ ]).starsHigh =
      ddLitCount ⟨some (str "Highest potential"), [str "Shooting"], some [true]⟩ :=
  (mz_C3 _
      [ ⟨some (str "Highest potential"), [str "Passing"], some [true, true, true]⟩ ]
      [ ⟨some (str "Lowest potential"), [str "Tackling"], none⟩ ]
      ⟨some (str "Highest potential"), [str "Shooting"], some [true]⟩).1
    rfl (by decide) (by decide)

/-- Counterexample to C9 as stated: a malformed stars widget with five lit
elements makes the parser return `starsHigh = 5`, outside `0..4`. -/
theorem mz_C9_cex :
    (parseScoutHTML
        [ { strongText := some (str "highest"), liTexts := [],
            stars := some [true, true, true, true, true] } ]).starsHigh = some 5 ∧
    ¬(5 ≤ 4) := by decide

theorem parseStep_starsHigh (acc : ScoutRecord) (dd : DDBlock) :
    (parseStep acc dd).starsHigh = acc.starsHigh ∨
      (parseStep acc dd).starsHigh = ddLitCount dd := by
  unfold parseStep
  cases dd.strongText with
  | none => exact Or.inl rfl
  | some t =>
    by_cases he : (jsNorm t).isEmpty
    · simp [he]
    · have he2 : (jsNorm t).isEmpty = false := by simpa using he
      simp only [he2, Bool.false_eq_true, if_false]
      by_cases hi : strIncludes (str "highest") (jsNorm t)
      · simp [hi]
      · have hi2 : strIncludes (str "highest") (jsNorm t) = false := by simpa using hi
        simp only [hi2, Bool.false_eq_true, if_false]
        by_cases hl : strIncludes (str "lowest") (jsNorm t)
        · simp [hl]
        · simp [hl]

theorem parseStep_starsLow (acc : ScoutRecord) (dd : DDBlock) :
    (parseStep acc dd).starsLow = acc.starsLow ∨
      (parseStep acc dd).starsLow = ddLitCount dd := by
  unfold parseStep
  cases dd.strongText with
  | none => exact Or.inl rfl
  | some t =>
    by_cases he : (jsNorm t).isEmpty
    · simp [he]
    · have he2 : (jsNorm t).isEmpty = false := by simpa using he
      simp only [he2, Bool.false_eq_true, if_false]
      by_cases hi : strIncludes (str "highest") (jsNorm t)
      · simp [hi]
      · have hi2 : strIncludes (str "highest") (jsNorm t) = false := by simpa using hi
        simp only [hi2, Bool.false_eq_true, if_false]
        by_cases hl : strIncludes (str "lowest") (jsNorm t)
        · simp [hl]
        · simp [hl]

theorem foldl_stars_bound (l : List DDBlock) :
    ∀ acc : ScoutRecord,
      (∀ dd ∈ l, ∀ w, dd.stars = some w → (w.filter (fun b => b)).length ≤ 4) →
      (∀ n, acc.starsHigh = some n → n ≤ 4) →
      (∀ n, acc.starsLow = some n → n ≤ 4) →
      (∀ n, (l.foldl parseStep acc).starsHigh = some n → n ≤ 4) ∧
        (∀ n, (l.foldl parseStep acc).starsLow = some n → n ≤ 4) := by
  induction l with
  | nil => intro acc _ hh hl; exact ⟨hh, hl⟩
  | cons d t ih =>
    intro acc h hh hl
    rw [List.foldl_cons]
    have hd : ∀ n, ddLitCount d = some n → n ≤ 4 := by
      intro n hn
      unfold ddLitCount at hn
      cases hw : d.stars with
      | none => rw [hw] at hn; simp at hn
      | some w =>
        rw [hw] at hn
        simp at hn
        rw [← hn]
        exact h d (List.mem_cons_self d t) w hw
    refine ih (parseStep acc d) (fun x hx => h x (List.mem_cons_of_mem d hx)) ?_ ?_
    · intro n hn
      rcases parseStep_starsHigh acc d with hcase | hcase
      · exact hh n (hcase ▸ hn)
      · exact hd n (hcase ▸ hn)
    · intro n hn
      rcases parseStep_starsLow acc d with hcase | hcase
      · exact hl n (hcase ▸ hn)
      · exact hd n (hcase ▸ hn)

/-- Claim C9 as amended: `starsHigh`/`starsLow` are each absent or the exact
lit-element count of the corresponding stars widget — an arbitrary natural
number in general; they lie in `0..4` whenever every stars widget of the
fragment has at most four lit elements (as on the host site). -/
theorem mz_C9 (doc : List DDBlock)
    (h : ∀ dd ∈ doc, ∀ w, dd.stars = some w → (w.filter (fun b => b)).length ≤ 4) :
    (∀ n, (parseScoutHTML doc).starsHigh = some n → n ≤ 4) ∧
      (∀ n, (parseScoutHTML doc).starsLow = some n → n ≤ 4) := by
  unfold parseScoutHTML
  refine foldl_stars_bound doc emptyScoutRecord h ?_ ?_
  · intro n hn; simp [emptyScoutRecord] at hn
  · intro n hn; simp [emptyScoutRecord] at hn

/-- Witness for the amended C9 on a concrete well-formed fragment. -/
theorem mz_C9_witness :
    (parseScoutHTML
        [ { strongText := some (str "highest"), liTexts := [str "Passing"],
            stars := some [true, true, false, false] } ]).starsHigh = some 2 ∧ 2 ≤ 4 :=
  ⟨by decide,
    (mz_C9
      [ { strongText := some (str "highest"), liTexts := [str "Passing"],
          stars := some [true, true, false, false] } ] (by decide)).1 2 (by decide)⟩

-- ### Flag-count mapping (Claim C1)

/-- Claim C1: the star-to-flag mapping of `applyFlagsToContainer` is exactly
`starsHigh`: 4 -> 3 green, 3 -> 2, 2 -> 1, anything else (including 0, 1 and
absent) -> 0; `starsLow`: 2 -> one yellow flag, 1 -> one red flag, anything
else (including 0, 3, 4 and absent) -> no low flag. -/
theorem mz_C1 :
    highCount (some 4) = 3 ∧ highCount (some 3) = 2 ∧ highCount (some 2) = 1 ∧
    (∀ s : Option Nat, s ≠ some 4 → s ≠ some 3 → s ≠ some 2 → highCount s = 0) ∧
    lowSpec (some 2) = some (FlagColor.yellow, 1) ∧
    lowSpec (some 1) = some (FlagColor.red, 1) ∧
    (∀ s : Option Nat, s ≠ some 2 → s ≠ some 1 → lowSpec s = none) := by
  refine ⟨rfl, rfl, rfl, ?_, rfl, rfl, ?_⟩
  · intro s h4 h3 h2
    unfold highCount
    rw [if_neg h4, if_neg h3, if_neg h2]
  · intro s h2 h1
    unfold lowSpec
    rw [if_neg h2, if_neg h1]

/-- Witness for C1 at the concrete star counts 0 and absent. -/
theorem mz_C1_witness : highCount (some 0) = 0 ∧ lowSpec none = none :=
  ⟨mz_C1.2.2.2.1 (some 0) (by decide) (by decide) (by decide),
    mz_C1.2.2.2.2.2.2 none (by decide) (by decide)⟩

-- ### Scout fetcher (Claim C5)

/-- Claim C5: for an uncached player id, the first `fetchScout` call issues
exactly one network request (fetching, parsing and caching the body), and an
immediately following second call — whatever the network would have answered
it — returns the same record from the cache with zero requests and an
unchanged store. -/
theorem mz_C5 (store : Store) (pid : Str) (t1 t2 status1 status2 : Nat)
    (body1 body2 : List DDBlock)
    (hmiss : (getCachedScoutData store t1 pid).1 = none)
    (hok : resOk status1 = true)
    (ht : t2 ≤ t1 + CACHE_EXPIRY_DAYS * 24 * 60 * 60 * 1000) :
    (fetchScout store t1 pid status1 body1).requests = 1 ∧
    (fetchScout store t1 pid status1 body1).result =
      Except.ok (parseScoutHTML body1) ∧
    fetchScout (fetchScout store t1 pid status1 body1).store t2 pid status2 body2 =
      { result := Except.ok (parseScoutHTML body1)
        store := (fetchScout store t1 pid status1 body1).store
        requests := 0 } := by
  have hpair : getCachedScoutData store t1 pid =
      (none, (getCachedScoutData store t1 pid).2) := by
    rw [Prod.ext_iff]
    exact ⟨hmiss, rfl⟩
  have hfirst : fetchScout store t1 pid status1 body1 =
      { result := Except.ok (parseScoutHTML body1)
        store := setCachedScoutData (getCachedScoutData store t1 pid).2 t1 pid
          (parseScoutHTML body1)
        requests := 1 } := by
    unfold fetchScout
    rw [hpair]
    simp only [hok, if_pos]
  have hhit := cache_roundtrip (getCachedScoutData store t1 pid).2 t1 pid
    (parseScoutHTML body1) t2 ht
  refine ⟨by rw [hfirst], by rw [hfirst], ?_⟩
  rw [hfirst]
  unfold fetchScout
  simp only [hhit]

-- ### Flag engine: generic index-update lemmas

theorem updAt_getElem (l : List α) (i : Nat) (f : α → α) (j : Nat) :
    (updAt l i f)[j]? = if j = i then (l[j]?).map f else l[j]? := by
  unfold updAt
  cases hi : l[i]? with
  | none =>
    by_cases hj : j = i
    · subst hj
      rw [if_pos rfl, hi]
      rfl
    · rw [if_neg hj]
  | some a =>
    rw [List.getElem?_set]
    by_cases hj : j = i
    · subst hj
      obtain ⟨hlt, hget⟩ := List.getElem?_eq_some.mp hi
      rw [if_pos rfl, if_pos rfl, if_pos hlt, hi]
      simp [hget]
    · rw [if_neg (fun hh => hj hh.symm), if_neg hj]

theorem foldl_updAt_getElem_count (is : List Nat) (f : α → α) :
    ∀ (l : List α) (j : Nat),
      (is.foldl (fun l i => updAt l i f) l)[j]? = (l[j]?).map (f^[is.count j]) := by
  induction is with
  | nil =>
    intro l j
    rw [List.foldl_nil]
    cases l[j]? <;> rfl
  | cons i t ih =>
    intro l j
    rw [List.foldl_cons, ih, updAt_getElem, List.count_cons]
    by_cases hj : j = i
    · subst hj
      rw [if_pos rfl, if_pos (beq_self_eq_true j)]
      cases l[j]? with
      | none => rfl
      | some a =>
        show some (f^[List.count j t] (f a)) = some (f^[List.count j t + 1] a)
        rw [Function.iterate_succ_apply]
    · have hne : ((i == j) = true) → False := fun hh => hj (eq_of_beq hh).symm
      rw [if_neg hj, if_neg hne, Nat.add_zero]

theorem iterate_idem (f : α → α) (hf : ∀ a, f (f a) = f a) (m : Nat) (a : α) :
    f^[m] (f a) = f a := by
  induction m with
  | zero => rfl
  | succ m ih =>
    show f^[m] (f (f a)) = f a
    rw [hf]
    exact ih

theorem foldl_updAt_getElem (is : List Nat) (f : α → α) (hf : ∀ a, f (f a) = f a)
    (l : List α) (j : Nat) :
    (is.foldl (fun l i => updAt l i f) l)[j]? =
      if j ∈ is then (l[j]?).map f else l[j]? := by
  rw [foldl_updAt_getElem_count]
  by_cases hm : j ∈ is
  · rw [if_pos hm]
    have hc : is.count j ≠ 0 := by
      rw [Ne, List.count_eq_zero]
      simp [hm]
    obtain ⟨m, hmeq⟩ : ∃ m, is.count j = m + 1 := ⟨is.count j - 1, by omega⟩
    rw [hmeq]
    cases l[j]? with
    | none => rfl
    | some a =>
      show some (f^[m + 1] a) = some (f a)
      rw [Function.iterate_succ_apply, iterate_idem f hf]
  · rw [if_neg hm, List.count_eq_zero.mpr hm]
    cases l[j]? <;> rfl

-- ### Flag engine: cell-level lemmas

theorem clearCellsAt_getElem (r : Row) (idxs : List Nat) (k : Nat) :
    (clearCellsAt r idxs).cells[k]? =
      (r.cells[k]?).map (fun c => if k ∈ idxs then clearNodes c else c) := by
  show (idxs.foldl (fun cs i => updAt cs i clearNodes) r.cells)[k]? = _
  rw [foldl_updAt_getElem idxs clearNodes (fun c => rfl)]
  by_cases hk : k ∈ idxs
  · rw [if_pos hk]
    cases r.cells[k]? <;> simp [hk]
  · rw [if_neg hk]
    cases r.cells[k]? <;> simp [hk]

theorem setFlagsInCells_getElem (r : Row) (idxs : List Nat) (color : FlagColor)
    (count : Nat) (k : Nat) :
    (setFlagsInCells r idxs color count).cells[k]? =
      (r.cells[k]?).map (fun c =>
        (appendFlag color)^[(idxs.take count).count k]
          (if k ∈ idxs then clearNodes c else c)) := by
  show ((idxs.take count).foldl (fun cs i => updAt cs i (appendFlag color))
      (clearCellsAt r idxs).cells)[k]? = _
  rw [foldl_updAt_getElem_count, clearCellsAt_getElem]
  cases r.cells[k]? <;> rfl

theorem appendFlag_width (color : FlagColor) (m : Nat) (c : Cell) :
    ((appendFlag color)^[m] c).width = c.width := by
  induction m with
  | zero => rfl
  | succ m ih =>
    rw [Function.iterate_succ_apply']
    show ((appendFlag color)^[m] c).width = c.width
    exact ih

theorem appendFlag_iterate_nodes (color : FlagColor) (m : Nat) (c : Cell) :
    ((appendFlag color)^[m] c).nodes =
      c.nodes ++ List.replicate m (CellNode.flagImg color) := by
  induction m with
  | zero => simp
  | succ m ih =>
    rw [Function.iterate_succ_apply']
    show ((appendFlag color)^[m] c).nodes ++ [CellNode.flagImg color] = _
    rw [ih, List.replicate_succ', List.append_assoc]

theorem setFlagsInCells_widths (r : Row) (idxs : List Nat) (color : FlagColor)
    (count : Nat) :
    (setFlagsInCells r idxs color count).cells.map Cell.width =
      r.cells.map Cell.width := by
  apply List.ext_getElem?
  intro k
  rw [List.getElem?_map, List.getElem?_map, setFlagsInCells_getElem]
  cases r.cells[k]? with
  | none => rfl
  | some c =>
    show some (((appendFlag color)^[_] (if k ∈ idxs then clearNodes c else c)).width) =
      some c.width
    rw [appendFlag_width]
    by_cases hk : k ∈ idxs <;> simp [hk, clearNodes]

theorem getFlagIdxs_setFlags (r : Row) (idxs : List Nat) (color : FlagColor)
    (count : Nat) :
    getFlagIdxs (setFlagsInCells r idxs color count) = getFlagIdxs r := by
  unfold getFlagIdxs
  rw [setFlagsInCells_widths]

theorem row_eq_of_cells (r s : Row) (h : ∀ k : Nat, r.cells[k]? = s.cells[k]?) : r = s := by
  cases r with
  | mk rc =>
    cases s with
    | mk sc =>
      have : rc = sc := List.ext_getElem? h
      rw [this]

theorem clearNodes_appendFlag_iterate (color : FlagColor) (m : Nat) (x : Cell) :
    clearNodes ((appendFlag color)^[m] x) = clearNodes x := by
  simp [clearNodes, appendFlag_width]

theorem clearNodes_clearNodes (c : Cell) : clearNodes (clearNodes c) = clearNodes c := rfl

theorem count_take_zero (k : Nat) (idxs : List Nat) (n : Nat) (hk : k ∉ idxs) :
    List.count k (idxs.take n) = 0 :=
  List.count_eq_zero.mpr (fun hmem => hk (List.take_subset n idxs hmem))

theorem setFlags_clearCells_absorb (r : Row) (idxs : List Nat) (color : FlagColor)
    (count : Nat) :
    setFlagsInCells (clearCellsAt r idxs) idxs color count =
      setFlagsInCells r idxs color count := by
  apply row_eq_of_cells
  intro k
  rw [setFlagsInCells_getElem (clearCellsAt r idxs) idxs color count k,
    setFlagsInCells_getElem r idxs color count k, clearCellsAt_getElem r idxs k]
  cases r.cells[k]? with
  | none => rfl
  | some c =>
    by_cases hk : k ∈ idxs
    · simp [hk, clearNodes_clearNodes]
    · simp [hk]

theorem clearCells_setFlags_absorb (r : Row) (idxs : List Nat) (color : FlagColor)
    (count : Nat) :
    clearCellsAt (setFlagsInCells r idxs color count) idxs = clearCellsAt r idxs := by
  apply row_eq_of_cells
  intro k
  rw [clearCellsAt_getElem (setFlagsInCells r idxs color count) idxs k,
    setFlagsInCells_getElem r idxs color count k, clearCellsAt_getElem r idxs k]
  cases r.cells[k]? with
  | none => rfl
  | some c =>
    by_cases hk : k ∈ idxs
    · simp [hk, clearNodes_appendFlag_iterate, clearNodes_clearNodes]
    · simp [hk, count_take_zero k idxs count hk]

theorem setFlags_setFlags_absorb (r : Row) (idxs : List Nat) (c1 c2 : FlagColor)
    (n1 n2 : Nat) :
    setFlagsInCells (setFlagsInCells r idxs c1 n1) idxs c2 n2 =
      setFlagsInCells r idxs c2 n2 := by
  apply row_eq_of_cells
  intro k
  rw [setFlagsInCells_getElem (setFlagsInCells r idxs c1 n1) idxs c2 n2 k,
    setFlagsInCells_getElem r idxs c1 n1 k, setFlagsInCells_getElem r idxs c2 n2 k]
  cases r.cells[k]? with
  | none => rfl
  | some c =>
    by_cases hk : k ∈ idxs
    · simp [hk, clearNodes_appendFlag_iterate, clearNodes_clearNodes]
    · simp [hk, count_take_zero k idxs n1 hk]

-- ### Flag engine: row-operation lemmas

theorem rowLowOp_eq (color : FlagColor) (count : Nat) (r : Row) :
    rowLowOp color count r = setFlagsInCells r (getFlagIdxs r) color count := by
  unfold rowLowOp
  exact setFlags_clearCells_absorb r (getFlagIdxs r) color count

theorem rowHighOp_idem (n : Nat) (r : Row) :
    rowHighOp n (rowHighOp n r) = rowHighOp n r := by
  unfold rowHighOp
  rw [getFlagIdxs_setFlags]
  exact setFlags_setFlags_absorb r (getFlagIdxs r) FlagColor.green FlagColor.green n n

theorem rowLowOp_idem (color : FlagColor) (n : Nat) (r : Row) :
    rowLowOp color n (rowLowOp color n r) = rowLowOp color n r := by
  simp only [rowLowOp_eq]
  rw [getFlagIdxs_setFlags]
  exact setFlags_setFlags_absorb r (getFlagIdxs r) color color n n

theorem rowLowOp_rowHighOp (color : FlagColor) (n m : Nat) (r : Row) :
    rowLowOp color n (rowHighOp m r) = rowLowOp color n r := by
  simp only [rowLowOp_eq]
  unfold rowHighOp
  rw [getFlagIdxs_setFlags]
  exact setFlags_setFlags_absorb r (getFlagIdxs r) FlagColor.green color m n

theorem findSome?_replicate_flag (color : FlagColor) (m : Nat) :
    (List.replicate m (CellNode.flagImg color)).findSome? (fun n =>
      match n with
      | CellNode.clippableSpan t => some t
      | _ => none) = none := by
  induction m with
  | zero => rfl
  | succ m ih =>
    rw [List.replicate_succ, List.findSome?_cons]
    exact ih

theorem cellClippable_iterate_clear (color : FlagColor) (m : Nat) (c : Cell) :
    cellClippable ((appendFlag color)^[m] (clearNodes c)) = none := by
  unfold cellClippable
  rw [appendFlag_iterate_nodes]
  show (([] : List CellNode) ++ List.replicate m (CellNode.flagImg color)).findSome? _ = none
  rw [List.nil_append]
  exact findSome?_replicate_flag color m

theorem rowKey_setFlags_cases (r : Row) (idxs : List Nat) (color : FlagColor)
    (count : Nat) :
    rowKey (setFlagsInCells r idxs color count) = rowKey r ∨
      rowKey (setFlagsInCells r idxs color count) = none := by
  unfold rowKey rowNameText
  rw [List.head?_eq_getElem?, List.head?_eq_getElem?,
    setFlagsInCells_getElem r idxs color count 0]
  cases hc : r.cells[0]? with
  | none => left; rfl
  | some c =>
    by_cases h0 : 0 ∈ idxs
    · right
      simp only [Option.map_some', h0, if_true]
      rw [cellClippable_iterate_clear]
      rfl
    · left
      have hcnt : List.count 0 (idxs.take count) = 0 := count_take_zero 0 idxs count h0
      simp only [Option.map_some', h0, if_false, hcnt]
      rfl

-- ### Flag engine: pass characterization

theorem matchIdxs_mem (orig : List Row) (key : Str) (j : Nat) :
    j ∈ matchIdxs orig key ↔ keyAt orig j = some key := by
  unfold matchIdxs keyAt
  rw [List.mem_filter, List.mem_range]
  cases hj : orig[j]? with
  | none => simp
  | some r =>
    have hlt : j < orig.length := (List.getElem?_eq_some.mp hj).1
    simp [hlt]

theorem rowMatchedBy_nil (orig : List Row) (j : Nat) : rowMatchedBy orig [] j = false := by
  unfold rowMatchedBy skillListMatches
  cases keyAt orig j <;> rfl

theorem rowMatchedBy_cons (orig : List Row) (s : Str) (t : List Str) (j : Nat) :
    rowMatchedBy orig (s :: t) j =
      (decide (keyAt orig j = some (jsNorm s)) || rowMatchedBy orig t j) := by
  unfold rowMatchedBy skillListMatches
  cases keyAt orig j with
  | none => simp
  | some k =>
    show ((s :: t).any fun s => jsNorm s == k) =
      (decide (some k = some (jsNorm s)) || t.any fun s => jsNorm s == k)
    rw [List.any_cons]
    by_cases h : jsNorm s = k
    · subst h
      simp
    · have h1 : (jsNorm s == k) = false := by simp [h]
      have h2 : decide (some k = some (jsNorm s)) = false :=
        decide_eq_false (fun hh => h (Option.some_injective _ hh).symm)
      rw [h1, h2, Bool.false_or]

theorem applyPass_getElem (skills : List Str) (orig : List Row) (f : Row → Row)
    (hf : ∀ r, f (f r) = f r) :
    ∀ (rs : List Row) (j : Nat),
      (applyPass orig skills f rs)[j]? =
        if rowMatchedBy orig skills j then (rs[j]?).map f else rs[j]? := by
  induction skills with
  | nil =>
    intro rs j
    unfold applyPass
    rw [List.foldl_nil, rowMatchedBy_nil]
    simp
  | cons s t ih =>
    intro rs j
    have ih2 := ih ((matchIdxs orig (jsNorm s)).foldl (fun rs i => updAt rs i f) rs) j
    unfold applyPass at ih2 ⊢
    rw [List.foldl_cons, ih2, foldl_updAt_getElem _ f hf, rowMatchedBy_cons]
    by_cases hs : keyAt orig j = some (jsNorm s)
    · have hmem : j ∈ matchIdxs orig (jsNorm s) := (matchIdxs_mem _ _ _).mpr hs
      rw [if_pos hmem, decide_eq_true hs, Bool.true_or]
      by_cases hm2 : rowMatchedBy orig t j = true
      · rw [if_pos hm2, if_pos rfl]
        cases rs[j]? with
        | none => rfl
        | some r =>
          show some (f (f r)) = some (f r)
          rw [hf]
      · rw [if_neg hm2, if_pos rfl]
    · have hnm : j ∉ matchIdxs orig (jsNorm s) :=
        fun hmem => hs ((matchIdxs_mem _ _ _).mp hmem)
      rw [if_neg hnm, decide_eq_false hs, Bool.false_or]

theorem applyHighPass_getElem (rows : List Row) (highest : List Str)
    (sh : Option Nat) (j : Nat) :
    (applyHighPass rows highest sh)[j]? =
      (rows[j]?).map (rowResultHigh rows highest sh j) := by
  unfold applyHighPass rowResultHigh
  by_cases h0 : 0 < highCount sh
  · rw [if_pos h0, applyPass_getElem highest rows _ (rowHighOp_idem (highCount sh))]
    by_cases hm : rowMatchedBy rows highest j
    · rw [if_pos hm]
      cases rows[j]? <;> simp [h0, hm]
    · rw [if_neg hm]
      cases rows[j]? <;> simp [h0, hm]
  · rw [if_neg h0]
    cases rows[j]? <;> simp [h0]

theorem applyFlags_getElem (rows : List Row) (highest lowest : List Str)
    (sh sl : Option Nat) (j : Nat) :
    (applyFlagsToContainer rows highest lowest sh sl)[j]? =
      (rows[j]?).map (rowResult rows highest lowest sh sl j) := by
  unfold applyFlagsToContainer rowResult
  cases hemp : rows.isEmpty with
  | true =>
    have h := List.isEmpty_iff.mp hemp
    subst h
    simp
  | false =>
    simp only [Bool.false_eq_true, if_false]
    cases hls : lowSpec sl with
    | none => exact applyHighPass_getElem rows highest sh j
    | some cn =>
      obtain ⟨c, n⟩ := cn
      rw [applyPass_getElem lowest rows _ (rowLowOp_idem c n), applyHighPass_getElem]
      by_cases hm : rowMatchedBy rows lowest j
      · rw [if_pos hm]
        cases rows[j]? with
        | none => rfl
        | some r =>
          simp only [Option.map_some', hm, if_true]
          unfold rowResultHigh
          by_cases h0 : 0 < highCount sh
          · by_cases hmh : rowMatchedBy rows highest j
            · simp [h0, hmh, rowLowOp_rowHighOp]
            · simp [h0, hmh]
          · simp [h0]
      · rw [if_neg hm]
        cases rows[j]? <;> simp [hm]

-- ### Flag engine: branch lemmas for the per-row result

theorem rowResultHigh_high (orig : List Row) (highest : List Str) (sh : Option Nat)
    (j : Nat) (r : Row) (h0 : 0 < highCount sh)
    (hm : rowMatchedBy orig highest j = true) :
    rowResultHigh orig highest sh j r = rowHighOp (highCount sh) r := by
  unfold rowResultHigh
  simp [h0, hm]

theorem rowResultHigh_none (orig : List Row) (highest : List Str) (sh : Option Nat)
    (j : Nat) (r : Row)
    (hh : ¬ 0 < highCount sh ∨ rowMatchedBy orig highest j = false) :
    rowResultHigh orig highest sh j r = r := by
  unfold rowResultHigh
  rcases hh with h | h
  · rw [if_neg h]
  · by_cases h0 : 0 < highCount sh
    · simp [h0, h]
    · simp [h0]

theorem rowResult_low (orig : List Row) (highest lowest : List Str) (sh sl : Option Nat)
    (j : Nat) (r : Row) (c : FlagColor) (n : Nat)
    (hls : lowSpec sl = some (c, n)) (hm : rowMatchedBy orig lowest j = true) :
    rowResult orig highest lowest sh sl j r = rowLowOp c n r := by
  unfold rowResult
  rw [hls]
  show (if rowMatchedBy orig lowest j then rowLowOp c n r
    else rowResultHigh orig highest sh j r) = rowLowOp c n r
  rw [if_pos hm]

theorem rowResult_high (orig : List Row) (highest lowest : List Str) (sh sl : Option Nat)
    (j : Nat) (r : Row)
    (hl : lowSpec sl = none ∨ rowMatchedBy orig lowest j = false)
    (h0 : 0 < highCount sh) (hm : rowMatchedBy orig highest j = true) :
    rowResult orig highest lowest sh sl j r = rowHighOp (highCount sh) r := by
  unfold rowResult
  rcases hl with h | h
  · rw [h]
    exact rowResultHigh_high orig highest sh j r h0 hm
  · cases hls : lowSpec sl with
    | none => exact rowResultHigh_high orig highest sh j r h0 hm
    | some cn =>
      obtain ⟨c, n⟩ := cn
      show (if rowMatchedBy orig lowest j then rowLowOp c n r
        else rowResultHigh orig highest sh j r) = rowHighOp (highCount sh) r
      rw [if_neg (by simp [h])]
      exact rowResultHigh_high orig highest sh j r h0 hm

theorem rowResult_none (orig : List Row) (highest lowest : List Str) (sh sl : Option Nat)
    (j : Nat) (r : Row)
    (hl : lowSpec sl = none ∨ rowMatchedBy orig lowest j = false)
    (hh : ¬ 0 < highCount sh ∨ rowMatchedBy orig highest j = false) :
    rowResult orig highest lowest sh sl j r = r := by
  unfold rowResult
  rcases hl with h | h
  · rw [h]
    exact rowResultHigh_none orig highest sh j r hh
  · cases hls : lowSpec sl with
    | none => exact rowResultHigh_none orig highest sh j r hh
    | some cn =>
      obtain ⟨c, n⟩ := cn
      show (if rowMatchedBy orig lowest j then rowLowOp c n r
        else rowResultHigh orig highest sh j r) = r
      rw [if_neg (by simp [h])]
      exact rowResultHigh_none orig highest sh j r hh

theorem rowKey_rowResult_cases (orig : List Row) (highest lowest : List Str)
    (sh sl : Option Nat) (j : Nat) (r : Row) :
    rowKey (rowResult orig highest lowest sh sl j r) = rowKey r ∨
      rowKey (rowResult orig highest lowest sh sl j r) = none := by
  cases hls : lowSpec sl with
  | some cn =>
    obtain ⟨c, n⟩ := cn
    by_cases hm : rowMatchedBy orig lowest j = true
    · rw [rowResult_low orig highest lowest sh sl j r c n hls hm, rowLowOp_eq]
      exact rowKey_setFlags_cases r (getFlagIdxs r) c n
    · have hm2 : rowMatchedBy orig lowest j = false := by simpa using hm
      by_cases h0 : 0 < highCount sh
      · by_cases hmh : rowMatchedBy orig highest j = true
        · rw [rowResult_high orig highest lowest sh sl j r (Or.inr hm2) h0 hmh]
          unfold rowHighOp
          exact rowKey_setFlags_cases r (getFlagIdxs r) FlagColor.green (highCount sh)
        · rw [rowResult_none orig highest lowest sh sl j r (Or.inr hm2)
            (Or.inr (by simpa using hmh))]
          left; rfl
      · rw [rowResult_none orig highest lowest sh sl j r (Or.inr hm2) (Or.inl h0)]
        left; rfl
  | none =>
    by_cases h0 : 0 < highCount sh
    · by_cases hmh : rowMatchedBy orig highest j = true
      · rw [rowResult_high orig highest lowest sh sl j r (Or.inl hls) h0 hmh]
        unfold rowHighOp
        exact rowKey_setFlags_cases r (getFlagIdxs r) FlagColor.green (highCount sh)
      · rw [rowResult_none orig highest lowest sh sl j r (Or.inl hls)
          (Or.inr (by simpa using hmh))]
        left; rfl
    · rw [rowResult_none orig highest lowest sh sl j r (Or.inl hls) (Or.inl h0)]
      left; rfl

theorem rowResult_fix (rows : List Row) (highest lowest : List Str)
    (sh sl : Option Nat) (j : Nat) (r : Row) (hr : rows[j]? = some r) :
    rowResult (applyFlagsToContainer rows highest lowest sh sl) highest lowest sh sl j
        (rowResult rows highest lowest sh sl j r) =
      rowResult rows highest lowest sh sl j r := by
  have hA : (applyFlagsToContainer rows highest lowest sh sl)[j]? =
      some (rowResult rows highest lowest sh sl j r) := by
    rw [applyFlags_getElem, hr]
    rfl
  have hkeyA : keyAt (applyFlagsToContainer rows highest lowest sh sl) j =
      rowKey (rowResult rows highest lowest sh sl j r) := by
    unfold keyAt
    rw [hA]
  have hkeyR : keyAt rows j = rowKey r := by
    unfold keyAt
    rw [hr]
  rcases rowKey_rowResult_cases rows highest lowest sh sl j r with hkey | hkey
  · have hmatch : ∀ L, rowMatchedBy (applyFlagsToContainer rows highest lowest sh sl) L j =
        rowMatchedBy rows L j := by
      intro L
      unfold rowMatchedBy
      rw [hkeyA, hkey, hkeyR]
    cases hls : lowSpec sl with
    | some cn =>
      obtain ⟨c, n⟩ := cn
      by_cases hml : rowMatchedBy rows lowest j = true
      · rw [rowResult_low rows highest lowest sh sl j r c n hls hml,
          rowResult_low _ highest lowest sh sl j _ c n hls (by rw [hmatch]; exact hml),
          rowLowOp_idem]
      · have hml2 : rowMatchedBy rows lowest j = false := by simpa using hml
        have hmlA : rowMatchedBy (applyFlagsToContainer rows highest lowest sh sl) lowest j
            = false := by rw [hmatch]; exact hml2
        by_cases h0 : 0 < highCount sh
        · by_cases hmh : rowMatchedBy rows highest j = true
          · rw [rowResult_high rows highest lowest sh sl j r (Or.inr hml2) h0 hmh,
              rowResult_high _ highest lowest sh sl j _ (Or.inr hmlA) h0
                (by rw [hmatch]; exact hmh),
              rowHighOp_idem]
          · have hmh2 : rowMatchedBy rows highest j = false := by simpa using hmh
            rw [rowResult_none rows highest lowest sh sl j r (Or.inr hml2) (Or.inr hmh2),
              rowResult_none _ highest lowest sh sl j _ (Or.inr hmlA)
                (Or.inr (by rw [hmatch]; exact hmh2))]
        · rw [rowResult_none rows highest lowest sh sl j r (Or.inr hml2) (Or.inl h0),
            rowResult_none _ highest lowest sh sl j _ (Or.inr hmlA) (Or.inl h0)]
    | none =>
      by_cases h0 : 0 < highCount sh
      · by_cases hmh : rowMatchedBy rows highest j = true
        · rw [rowResult_high rows highest lowest sh sl j r (Or.inl hls) h0 hmh,
            rowResult_high _ highest lowest sh sl j _ (Or.inl hls) h0
              (by rw [hmatch]; exact hmh),
            rowHighOp_idem]
        · have hmh2 : rowMatchedBy rows highest j = false := by simpa using hmh
          rw [rowResult_none rows highest lowest sh sl j r (Or.inl hls) (Or.inr hmh2),
            rowResult_none _ highest lowest sh sl j _ (Or.inl hls)
              (Or.inr (by rw [hmatch]; exact hmh2))]
      · rw [rowResult_none rows highest lowest sh sl j r (Or.inl hls) (Or.inl h0),
          rowResult_none _ highest lowest sh sl j _ (Or.inl hls) (Or.inl h0)]
  · have hmatchF : ∀ L, rowMatchedBy (applyFlagsToContainer rows highest lowest sh sl) L j
        = false := by
      intro L
      unfold rowMatchedBy
      rw [hkeyA, hkey]
    cases hls : lowSpec sl with
    | none =>
      exact rowResult_none _ highest lowest sh sl j _ (Or.inl hls)
        (Or.inr (hmatchF highest))
    | some cn =>
      obtain ⟨c, n⟩ := cn
      exact rowResult_none _ highest lowest sh sl j _ (Or.inr (hmatchF lowest))
        (Or.inr (hmatchF highest))

/-- Claim C7: `applyFlagsToContainer` is idempotent — running it a second
time with identical inputs leaves every table row exactly as the first run
left it, because each flag placement clears the flag-eligible cells before
writing. -/
theorem mz_C7 (rows : List Row) (highest lowest : List Str) (sh sl : Option Nat) :
    applyFlagsToContainer (applyFlagsToContainer rows highest lowest sh sl)
        highest lowest sh sl =
      applyFlagsToContainer rows highest lowest sh sl := by
  apply List.ext_getElem?
  intro j
  rw [applyFlags_getElem, applyFlags_getElem]
  cases hr : rows[j]? with
  | none => rfl
  | some r =>
    simp only [Option.map_some']
    rw [rowResult_fix rows highest lowest sh sl j r hr]

-- ### Frame lemmas (Claim C10)

theorem setFlags_frame (r : Row) (I : List Nat) (color : FlagColor) (count k : Nat)
    (hk : k ∉ I) : (setFlagsInCells r I color count).cells[k]? = r.cells[k]? := by
  rw [setFlagsInCells_getElem]
  cases r.cells[k]? with
  | none => rfl
  | some c => simp [hk, count_take_zero k I count hk]

theorem rowResult_cells_frame (orig : List Row) (highest lowest : List Str)
    (sh sl : Option Nat) (j : Nat) (r : Row) (k : Nat) (hk : k ∉ getFlagIdxs r) :
    (rowResult orig highest lowest sh sl j r).cells[k]? = r.cells[k]? := by
  cases hls : lowSpec sl with
  | some cn =>
    obtain ⟨c, n⟩ := cn
    by_cases hm : rowMatchedBy orig lowest j = true
    · rw [rowResult_low orig highest lowest sh sl j r c n hls hm, rowLowOp_eq]
      exact setFlags_frame r (getFlagIdxs r) c n k hk
    · have hm2 : rowMatchedBy orig lowest j = false := by simpa using hm
      by_cases h0 : 0 < highCount sh
      · by_cases hmh : rowMatchedBy orig highest j = true
        · rw [rowResult_high orig highest lowest sh sl j r (Or.inr hm2) h0 hmh]
          exact setFlags_frame r (getFlagIdxs r) FlagColor.green (highCount sh) k hk
        · rw [rowResult_none orig highest lowest sh sl j r (Or.inr hm2)
            (Or.inr (by simpa using hmh))]
      · rw [rowResult_none orig highest lowest sh sl j r (Or.inr hm2) (Or.inl h0)]
  | none =>
    by_cases h0 : 0 < highCount sh
    · by_cases hmh : rowMatchedBy orig highest j = true
      · rw [rowResult_high orig highest lowest sh sl j r (Or.inl hls) h0 hmh]
        exact setFlags_frame r (getFlagIdxs r) FlagColor.green (highCount sh) k hk
      · rw [rowResult_none orig highest lowest sh sl j r (Or.inl hls)
          (Or.inr (by simpa using hmh))]
    · rw [rowResult_none orig highest lowest sh sl j r (Or.inl hls) (Or.inl h0)]

/-- Counterexample to C10 as stated: in the width-attribute fallback (a row
with fewer than 4 cells), the selected flag cells can include the row's
FIRST cell, so the skill-name cell is cleared and overwritten — here the
name span itself is destroyed and replaced by a green flag. -/
theorem mz_C10_cex :
    applyFlagsToContainer
        [Row.mk [Cell.mk (some 7) [CellNode.clippableSpan (str "passing")],
          Cell.mk (some 7) [], Cell.mk (some 6) []]]
        [str "Passing"] [] (some 4) none =
      [Row.mk [Cell.mk (some 7) [CellNode.flagImg FlagColor.green],
        Cell.mk (some 7) [CellNode.flagImg FlagColor.green],
        Cell.mk (some 6) [CellNode.flagImg FlagColor.green]]] ∧
    Cell.mk (some 7) [CellNode.flagImg FlagColor.green] ≠
      Cell.mk (some 7) [CellNode.clippableSpan (str "passing")] := by decide

/-- Claim C10 as amended: `applyFlagsToContainer` changes only the
flag-eligible cells of rows whose key (plain trim+lowercase of the displayed
name) is matched by a `highest` entry (with a positive flag count) or a
`lowest` entry (with a low spec): a row matched by neither list is returned
unchanged, cells outside `getFlagIdxs` are never touched, and for rows with
at least 4 cells the first (skill-name) cell is among the untouched ones. -/
theorem mz_C10 (rows : List Row) (highest lowest : List Str) (sh sl : Option Nat)
    (j : Nat) (r s : Row) (hr : rows[j]? = some r)
    (hs : (applyFlagsToContainer rows highest lowest sh sl)[j]? = some s) :
    (rowMatchedBy rows highest j = false → rowMatchedBy rows lowest j = false → s = r) ∧
    (∀ k : Nat, k ∉ getFlagIdxs r → s.cells[k]? = r.cells[k]?) ∧
    (4 ≤ r.cells.length → s.cells[0]? = r.cells[0]?) := by
  rw [applyFlags_getElem, hr] at hs
  have hseq : s = rowResult rows highest lowest sh sl j r :=
    (Option.some_injective _ hs).symm
  subst hseq
  refine ⟨?_, ?_, ?_⟩
  · intro hh hl
    have hl2 : lowSpec sl = none ∨ rowMatchedBy rows lowest j = false := Or.inr hl
    have hh2 : ¬ 0 < highCount sh ∨ rowMatchedBy rows highest j = false := Or.inr hh
    exact rowResult_none rows highest lowest sh sl j r hl2 hh2
  · intro k hk
    exact rowResult_cells_frame rows highest lowest sh sl j r k hk
  · intro h4
    have hlen : 4 ≤ (r.cells.map Cell.width).length := by
      rw [List.length_map]
      exact h4
    have h0 : (0 : Nat) ∉ getFlagIdxs r := by
      unfold getFlagIdxs flagIdxsOf
      rw [if_pos hlen]
      decide
    exact rowResult_cells_frame rows highest lowest sh sl j r 0 h0

/-- Witness for the amended C10: a matched 4-cell row keeps its first
(skill-name) cell while the trailing cells receive the green flags. -/
theorem mz_C10_witness :
    (Row.mk [Cell.mk none [CellNode.clippableSpan (str "Passing")],
      Cell.mk (some 7) [CellNode.flagImg FlagColor.green],
      Cell.mk (some 7) [CellNode.flagImg FlagColor.green],
      Cell.mk (some 6) [CellNode.flagImg FlagColor.green]]).cells[0]? =
    (Row.mk [Cell.mk none [CellNode.clippableSpan (str "Passing")],
      Cell.mk (some 7) [CellNode.otherNode 0],
      Cell.mk (some 7) [], Cell.mk (some 6) []]).cells[0]? :=
  (mz_C10
    [Row.mk [Cell.mk none [CellNode.clippableSpan (str "Passing")],
      Cell.mk (some 7) [CellNode.otherNode 0],
      Cell.mk (some 7) [], Cell.mk (some 6) []]]
    [str "Passing"] [] (some 4) none 0
    (Row.mk [Cell.mk none [CellNode.clippableSpan (str "Passing")],
      Cell.mk (some 7) [CellNode.otherNode 0],
      Cell.mk (some 7) [], Cell.mk (some 6) []])
    (Row.mk [Cell.mk none [CellNode.clippableSpan (str "Passing")],
      Cell.mk (some 7) [CellNode.flagImg FlagColor.green],
      Cell.mk (some 7) [CellNode.flagImg FlagColor.green],
      Cell.mk (some 6) [CellNode.flagImg FlagColor.green]])
    (by decide) (by decide)).2.2 (by decide)

-- ### Skill-name matching in the flag engine (Claim C4)

/-- Claim C4 evaluated at the failing input: the alias table maps both
"Goalkeeping" and "Keeping" to the canonical key "keeping", but
`applyFlagsToContainer` matches rows by the plain trim+lowercase `norm`
(`normalizeSkillName` and `mapNameToRow` are never called by it), so a scout
record naming "Goalkeeping" leaves a row displayed as "Keeping" completely
unchanged — no flags are placed. -/
theorem mz_C4 :
    normalizeSkillName (str "Goalkeeping") = str "keeping" ∧
    normalizeSkillName (str "Keeping") = str "keeping" ∧
    applyFlagsToContainer
        [Row.mk [Cell.mk none [CellNode.clippableSpan (str "Keeping")],
          Cell.mk (some 7) [], Cell.mk (some 7) [], Cell.mk (some 6) []]]
        [str "Goalkeeping"] [] (some 4) none =
      [Row.mk [Cell.mk none [CellNode.clippableSpan (str "Keeping")],
        Cell.mk (some 7) [], Cell.mk (some 7) [], Cell.mk (some 6) []]] := by decide

/-- Witness for C5 at a concrete uncached player id and a 200 response. -/
theorem mz_C5_witness :
    (fetchScout [] 0 (str "7") 200 []).requests = 1 ∧
    (fetchScout [] 0 (str "7") 200 []).result = Except.ok (parseScoutHTML []) ∧
    fetchScout (fetchScout [] 0 (str "7") 200 []).store 1 (str "7") 500 [] =
      { result := Except.ok (parseScoutHTML [])
        store := (fetchScout [] 0 (str "7") 200 []).store
        requests := 0 } :=
  mz_C5 [] (str "7") 0 1 200 500 [] [] (by decide) (by decide) (by decide)
